import Mathlib

/-!
Verification development for the docu-chat-ai RAG pipeline
(backend services `embeddingService.js`, `chatService.js`, model `Chunk.js`).

The JavaScript sources are shallowly embedded as executable Lean functions.
External capabilities keep the shape they have at the call site:
  * the BPE tokenizer (`gpt-tokenizer`, an npm dependency) is a parameter
    `encode : String → List Nat` (token ids are numbers);
  * JavaScript `Math.sqrt` (floats) is a parameter `sq : ℚ → ℚ`, vectors are
    lists of rationals;
  * the database result of the raw SQL query in `Chunk.findSimilar` is
    modelled relationally: `ORDER BY "similarity" DESC` constrains the output
    to be sorted, but specifies no tie-break, so the result is any sorted
    permutation of the eligible rows, truncated by `LIMIT`.
-/

set_option maxRecDepth 16384

namespace DocuChat

/-! ### Tokenizer/Chunker — `splitTextIntoChunks` (embeddingService.js:290-353)

The page-break heuristic is the JS regex split `text.split(/\f|\n\s*\n\s*\n/)`.
A separator is either a form feed, or a run `\n \s* \n \s* \n`; with greedy
matching the latter matches, at a position whose whitespace run contains at
least three newlines, everything up to the last newline of that run. -/

/-- Character class `\s` of the JS regex, restricted to the ASCII whitespace
characters (the unicode spaces play no role in the claims). -/
def jsWhitespace (c : Char) : Bool :=
  c = ' ' || c = '\t' || c = '\n' || c = '\r' || c = '\x0b' || c = '\x0c'

/-- Index of the last newline inside `run` (meaningful when `run` contains one). -/
def lastNewlinePos (run : List Char) : Nat :=
  run.length - 1 - (run.reverse.takeWhile (fun c => c ≠ '\n')).length

/-- Length of the page-break separator matched at the head of `l` by
`/\f|\n\s*\n\s*\n/` (0 when no separator matches here). -/
def sepLen (l : List Char) : Nat :=
  match l with
  | [] => 0
  | c :: _ =>
    if c = '\x0c' then 1
    else if c = '\n' then
      let run := l.takeWhile jsWhitespace
      if 3 ≤ (run.filter (fun c => c = '\n')).length then lastNewlinePos run + 1 else 0
    else 0

/-- Worker for the regex split: scans the text, `cur` holds the reversed
characters of the page being accumulated.  Structural recursion on a fuel
that each step decrements while the text shrinks by at least one character,
so fuel `l.length` never runs out. -/
def splitPagesGo : Nat → List Char → List Char → List String
  | _, [], cur => [String.mk cur.reverse]
  | 0, _ :: _, cur => [String.mk cur.reverse]
  | fuel + 1, c :: rest, cur =>
    if sepLen (c :: rest) = 0 then splitPagesGo fuel rest (c :: cur)
    else String.mk cur.reverse :: splitPagesGo fuel ((c :: rest).drop (sepLen (c :: rest))) []

/-- `text.split(/\f|\n\s*\n\s*\n/)` of embeddingService.js:298. -/
def splitPages (s : String) : List String :=
  splitPagesGo s.toList.length s.toList []

/-- Punctuation class of the `replace(/ ([.,;:!?])/g, '$1')` fixup. -/
def punctChars : List Char := ['.', ',', ';', ':', '!', '?']

/-- The global replace `/ ([.,;:!?])/g → '$1'`: removes a space immediately
before a punctuation character, scanning left to right. -/
def fixPunct : List Char → List Char
  | ' ' :: c :: rest =>
    if punctChars.contains c then c :: fixPunct rest
    else ' ' :: fixPunct (c :: rest)
  | c :: rest => c :: fixPunct rest
  | [] => []

/-- The `decode` helper of embeddingService.js:349-353.  It is a placeholder:
it joins the numeric token ids with spaces instead of inverting the
tokenizer, so its output consists of digits and spaces only. -/
def decodeTokens (ts : List Nat) : String :=
  String.mk (fixPunct (String.intercalate " " (ts.map (fun t => toString t))).toList)

/-- One element of the array built by `splitTextIntoChunks`. -/
structure ChunkPiece where
  text : String
  page : Nat
  tokenCount : Nat
  startIndex : Nat
  endIndex : Int
deriving DecidableEq, Repr

/-- The chunk pushed for window start `s` (embeddingService.js:313-328). -/
def pieceAt (tokens : List Nat) (target page s : Nat) : ChunkPiece :=
  { text := decodeTokens ((tokens.drop s).take target)
    page := page
    tokenCount := min (s + target) tokens.length - s
    startIndex := s
    endIndex := (min (s + target) tokens.length : Int) - 1 }

/-- The sliding-window loop of embeddingService.js:311-337, advancing by
`step = targetChunkSize - overlapTokens` tokens.  The `0 < step` conjunct
mirrors the fact that with a non-positive step the JS loop never terminates.
Structural recursion on fuel; each iteration advances `s` by at least one,
so fuel `tokens.length + 1` never runs out when the loop condition holds. -/
def chunkLoop (tokens : List Nat) (target step page : Nat) :
    Nat → Nat → List ChunkPiece
  | 0, _ => []
  | fuel + 1, s =>
    if s < tokens.length ∧ 0 < step then
      pieceAt tokens target page s :: chunkLoop tokens target step page fuel (s + step)
    else []

/-- Chunking of one page segment with an overlap given in tokens. -/
def chunkPage (tokens : List Nat) (target overlapTokens page : Nat) : List ChunkPiece :=
  chunkLoop tokens target (target - overlapTokens) page (tokens.length + 1) 0

/-- `splitTextIntoChunks(text, targetChunkSize, overlap)` of
embeddingService.js:290-341.  `encode` is the external `gpt-tokenizer`.
Empty (all-whitespace) pages are skipped but still advance the page index. -/
def splitTextIntoChunks (encode : String → List Nat) (text : String)
    (targetChunkSize : Nat) (overlap : ℚ) : List ChunkPiece :=
  ((splitPages text).enum).flatMap (fun p =>
    if p.2.toList.all jsWhitespace then []
    else chunkPage (encode p.2) targetChunkSize
      (⌊(targetChunkSize : ℚ) * overlap⌋).toNat (p.1 + 1))

/-- Concrete stand-in tokenizer used to evaluate the chunker on explicit
inputs: one token (the character code) per character. -/
def charTokens (s : String) : List Nat := s.toList.map Char.toNat

/-- Number of token positions shared by two chunks of the same page
(intersection of their inclusive `[startIndex, endIndex]` ranges). -/
def tokenOverlap (a b : ChunkPiece) : Int :=
  min a.endIndex b.endIndex - max (a.startIndex : Int) (b.startIndex : Int) + 1

/-- The spec's overlap bound: the shared token count is within one token of
`target_size × overlap_fraction`. -/
def overlapWithinOne (a b : ChunkPiece) (target : Nat) (frac : ℚ) : Prop :=
  |(tokenOverlap a b : ℚ) - (target : ℚ) * frac| ≤ 1

/-! ### Vector Index — `Chunk.findSimilar` (models/Chunk.js:70-118)

The store is modelled as two tables whose list order is insertion order.
Ids (UUID strings in the source) are abstracted to naturals. -/

/-- Document lifecycle status (`ENUM('pending','processing','ready','error')`). -/
inductive DocStatus where
  | pending | processing | ready | error
deriving DecidableEq, Repr

/-- A row of the `Documents` table (the fields retrieval reads). -/
structure DocRow where
  id : Nat
  orgId : Nat
  folderId : Option Nat
  tags : List Nat
  title : String
  status : DocStatus
deriving DecidableEq, Repr

/-- A row of the `Chunks` table (the fields retrieval reads). -/
structure ChunkRow where
  id : Nat
  documentId : Nat
  content : String
  page : Nat
  embedding : List ℚ
deriving DecidableEq, Repr

/-- The persistent store; list position is insertion order. -/
structure DB where
  documents : List DocRow
  chunks : List ChunkRow
deriving DecidableEq, Repr

/-- Dot product of two embedding vectors. -/
def dotQ (a b : List ℚ) : ℚ := ((a.zip b).map (fun p => p.1 * p.2)).sum

/-- Cosine similarity (`1 - (embedding <=> query)` in pgvector), with the
square root `sq` a parameter (JS `Math.sqrt`). -/
def cosineSim (sq : ℚ → ℚ) (a b : List ℚ) : ℚ :=
  dotQ a b / (sq (dotQ a a) * sq (dotQ b b))

/-- A row of the result set of the `findSimilar` SQL query: the chunk joined
with its document title plus the computed similarity. -/
structure SimRow where
  id : Nat
  documentId : Nat
  content : String
  page : Nat
  documentTitle : String
  similarity : ℚ
deriving DecidableEq, Repr

/-- `INNER JOIN "Documents" ON "Chunks"."documentId" = "Documents"."id"`. -/
def eligiblePairs (db : DB) : List (ChunkRow × DocRow) :=
  db.chunks.flatMap (fun c =>
    (db.documents.filter (fun d => d.id == c.documentId)).map (fun d => (c, d)))

/-- The WHERE clause of `findSimilar`: similarity threshold, the optional
document-id allow-list (skipped when absent or empty, mirroring
`if (documentIds && documentIds.length > 0)`), and the optional org filter. -/
def rowPasses (sq : ℚ → ℚ) (q : List ℚ) (thr : ℚ) (docIds : Option (List Nat))
    (orgId : Option Nat) (p : ChunkRow × DocRow) : Bool :=
  decide (thr ≤ cosineSim sq p.1.embedding q) &&
  (match docIds with
   | none => true
   | some ids => if ids.isEmpty then true else ids.contains p.1.documentId) &&
  (match orgId with
   | none => true
   | some o => p.2.orgId == o)

/-- The SELECT projection of `findSimilar`. -/
def rowOf (sq : ℚ → ℚ) (q : List ℚ) (p : ChunkRow × DocRow) : SimRow :=
  { id := p.1.id
    documentId := p.1.documentId
    content := p.1.content
    page := p.1.page
    documentTitle := p.2.title
    similarity := cosineSim sq p.1.embedding q }

/-- The multiset of rows satisfying the query of `findSimilar`, in insertion
(table) order, before `ORDER BY`/`LIMIT` are applied. -/
def candidateRows (sq : ℚ → ℚ) (db : DB) (q : List ℚ) (thr : ℚ)
    (docIds : Option (List Nat)) (orgId : Option Nat) : List SimRow :=
  ((eligiblePairs db).filter (rowPasses sq q thr docIds orgId)).map (rowOf sq q)

/-- Similarity-descending comparison used by `ORDER BY "similarity" DESC`. -/
def simDesc (a b : SimRow) : Prop := b.similarity ≤ a.similarity

instance : DecidableRel simDesc := fun a b => inferInstanceAs (Decidable (_ ≤ _))

/-- Relational semantics of the `findSimilar` query: the database may return
any permutation of the eligible rows that is sorted by similarity descending
(the `ORDER BY` has no tie-break key, so tied rows are unordered), truncated
to `limit` rows. -/
def FindSimilarResult (sq : ℚ → ℚ) (db : DB) (q : List ℚ) (thr : ℚ)
    (docIds : Option (List Nat)) (orgId : Option Nat) (lim : Nat)
    (out : List SimRow) : Prop :=
  ∃ ranked : List SimRow,
    List.Perm (candidateRows sq db q thr docIds orgId) ranked ∧
    List.Pairwise simDesc ranked ∧
    out = ranked.take lim

/-! ### Retriever — `findRelevantDocuments` (embeddingService.js:93-182) -/

/-- `Op.overlap`: the document's tag array shares an element with the filter. -/
def tagsOverlap (docTags tagArr : List Nat) : Bool :=
  docTags.any (fun t => tagArr.contains t)

/-- Documents of the folder within the org (embeddingService.js:121-129). -/
def folderDocIds (db : DB) (orgId folderId : Nat) : List Nat :=
  (db.documents.filter (fun d => d.folderId == some folderId && d.orgId == orgId)).map
    (fun d => d.id)

/-- Documents of the org carrying one of the tags, optionally restricted to
the folder (embeddingService.js:143-152). -/
def taggedDocIds (db : DB) (orgId : Nat) (folderId : Option Nat)
    (tagArr : List Nat) : List Nat :=
  (db.documents.filter (fun d =>
      d.orgId == orgId &&
      (match folderId with
       | some f => d.folderId == some f
       | none => true) &&
      tagsOverlap d.tags tagArr)).map (fun d => d.id)

/-- Scope resolution of `findRelevantDocuments`: `none` is the early
`return []`; `some docIds` is the `searchOptions.documentIds` value handed to
`findSimilar` (`none` meaning no document filter). -/
def resolveScope (db : DB) (orgId : Nat) (folderId : Option Nat)
    (tags : List Nat) : Option (Option (List Nat)) :=
  let fIds : Option (List Nat) := folderId.map (folderDocIds db orgId)
  match fIds with
  | some [] => none
  | _ =>
    if tags.isEmpty then some fIds
    else
      let tIds := taggedDocIds db orgId folderId tags
      if tIds.isEmpty then none
      else
        match fIds with
        | some ids =>
          let inter := ids.filter (fun i => tIds.contains i)
          if inter.isEmpty then none else some (some inter)
        | none => some (some tIds)

/-- Relational semantics of `findRelevantDocuments`: resolve the folder/tag
scope (short-circuiting to an empty result), then run `findSimilar` with the
user's org id.  `queryEmbedding` stands for the value `generateEmbedding`
produced for the query text. -/
def FindRelevantResult (sq : ℚ → ℚ) (db : DB) (orgId : Nat)
    (queryEmbedding : List ℚ) (folderId : Option Nat) (tags : List Nat)
    (lim : Nat) (thr : ℚ) (out : List SimRow) : Prop :=
  match resolveScope db orgId folderId tags with
  | none => out = []
  | some docIds => FindSimilarResult sq db queryEmbedding thr docIds (some orgId) lim out

/-- Pointwise status rewrite of the document table (used to state that
retrieval never consults `status`). -/
def setStatuses (g : DocRow → DocStatus) (db : DB) : DB :=
  { db with documents := db.documents.map (fun d => { d with status := g d }) }

/-! ### Citation Extractor — `extractCitations` (chatService.js:443-469)

The scan implements the loop `while ((match = citationRegex.exec(response)))`
with `citationRegex = /\[Document (\d+):/g`.  A match is the literal
`[Document ` followed by a nonempty digit run followed by `:`.  Because the
interior of a match contains no `[`, matches cannot overlap, so scanning one
character at a time yields exactly the regex's non-overlapping matches. -/

/-- Consume the literal `pat` from the front of `l`. -/
def matchLiteral : List Char → List Char → Option (List Char)
  | [], l => some l
  | _ :: _, [] => none
  | p :: ps, c :: cs => if c = p then matchLiteral ps cs else none

/-- The characters of the literal part of the citation pattern. -/
def docRefLit : List Char := "[Document ".toList

/-- Value of a digit run (JS `parseInt` on the captured group). -/
def digitsVal (ds : List Char) : Nat :=
  ds.foldl (fun a c => 10 * a + (c.toNat - 48)) 0

/-- Try to match `\[Document (\d+):` at the head of `l`. -/
def ordAt (l : List Char) : Option Nat :=
  match matchLiteral docRefLit l with
  | none => none
  | some rest =>
    let ds := rest.takeWhile Char.isDigit
    if ds.isEmpty then none
    else
      match rest.drop ds.length with
      | ':' :: _ => some (digitsVal ds)
      | _ => none

/-- All ordinals back-referenced in the answer text, in scan order. -/
def scanOrds : List Char → List Nat
  | [] => []
  | c :: rest =>
    match ordAt (c :: rest) with
    | some n => n :: scanOrds rest
    | none => scanOrds rest

/-- The Citation record built at chatService.js:457-463. -/
structure Citation where
  chunkId : Nat
  documentId : Nat
  documentTitle : String
  page : Nat
  similarity : ℚ
deriving DecidableEq, Repr

/-- Citation built from a retrieved passage; `||` defaults mirror JS
falsiness (`'' → 'Untitled'`, `0 → 1`). -/
def citeOf (d : SimRow) : Citation :=
  { chunkId := d.id
    documentId := d.documentId
    documentTitle := if d.documentTitle = "" then "Untitled" else d.documentTitle
    page := if d.page = 0 then 1 else d.page
    similarity := d.similarity }

/-- Body of the extraction loop for one parsed ordinal `n`: bounds-check the
0-based index `n - 1` (`documentIndex >= 0 && documentIndex < length`) and
deduplicate by chunk id before pushing. -/
def citeStep (docs : List SimRow) (cits : List Citation) (n : Nat) : List Citation :=
  match (if 1 ≤ n then docs.get? (n - 1) else none) with
  | none => cits
  | some d =>
    if cits.any (fun c => c.chunkId == d.id) then cits else cits ++ [citeOf d]

/-- `extractCitations(response, relevantDocuments)` of chatService.js:443-469. -/
def extractCitations (response : String) (docs : List SimRow) : List Citation :=
  (scanOrds response.toList).foldl (citeStep docs) []

/-! ### Prompt Assembler — `generatePrompt` (embeddingService.js:248-279) -/

/-- A role-tagged segment of the prompt sent to the generative call. -/
structure PromptMsg where
  role : String
  content : String
deriving DecidableEq, Repr

/-- Rendering of one retrieved chunk with its 1-based ordinal
(embeddingService.js:264-266); `|| 'Untitled'` and `|| 'N/A'` mirror JS
falsiness. -/
def formatChunk (p : Nat × SimRow) : String :=
  "[Document " ++ toString (p.1 + 1) ++ ": " ++
    (if p.2.documentTitle = "" then "Untitled" else p.2.documentTitle) ++
    ", Page " ++ (if p.2.page = 0 then "N/A" else toString p.2.page) ++ "]\n" ++
    p.2.content ++ "\n"

/-- `generatePrompt(query, chunks)`: a system segment followed by a single
user segment carrying the question and the rendered excerpts. -/
def generatePrompt (systemPrompt query : String) (chunks : List SimRow) :
    List PromptMsg :=
  if chunks.isEmpty then
    [⟨"system", systemPrompt⟩,
     ⟨"user", "Question: " ++ query ++
        "\n\nDocument excerpts: [No relevant documents found]"⟩]
  else
    [⟨"system", systemPrompt⟩,
     ⟨"user", "Question: " ++ query ++ "\n\nDocument excerpts:\n" ++
        String.intercalate "\n" (chunks.enum.map formatChunk)⟩]

/-! ### Chat service — `processMessage` (chatService.js:285-396) -/

/-- A stored chat message (`Message` row): role, content, citations. -/
structure Msg where
  role : String
  content : String
  citations : Option (List Citation)
deriving DecidableEq, Repr

/-- The hard-coded `limit: 10` of the history query (chatService.js:319). -/
def historyLimit : Nat := 10

/-- The fixed assistant reply saved by the catch block (chatService.js:389). -/
def errorReplyText : String :=
  "I encountered an error while processing your request. Please try again."

/-- The prompt message list assembled by `processMessage` (chatService.js:313-345):
the system segment of `generatePrompt`, then the history fetched by
`Message.findAll({order createdAt ASC, limit 10})` — the EARLIEST ten stored
messages, the just-saved user message included — minus its last element
(`slice(0, -1)`), then the context-bearing user segment. -/
def chatMessagesFor (systemPrompt : String) (prior : List Msg)
    (userMessage : String) (chunks : List SimRow) : List PromptMsg :=
  let afterSave := prior ++ [⟨"user", userMessage, none⟩]
  let history := afterSave.take historyLimit
  let formattedHistory := history.map (fun m => (⟨m.role, m.content⟩ : PromptMsg))
  let p := generatePrompt systemPrompt userMessage chunks
  [p.getD 0 ⟨"", ""⟩] ++ formattedHistory.dropLast ++ [p.getD 1 ⟨"", ""⟩]

/-- End-to-end state effect of `processMessage` on the thread's message list.
`pipeline` abstracts the fallible steps between the ownership check and the
final save (retrieval and the generative call): on success it yields the
retrieved passages and the answer text; on failure, the error thrown.
Returns the new message list and the outcome handed to the caller. -/
def processMessageRun (threadFound : Bool) (prior : List Msg)
    (userMessage : String) (pipeline : Except String (List SimRow × String)) :
    List Msg × Except String String :=
  if threadFound then
    let withUser := prior ++ [⟨"user", userMessage, none⟩]
    match pipeline with
    | .ok (docs, answer) =>
      let cits := extractCitations answer docs
      (withUser ++ [⟨"assistant", answer, some cits⟩], .ok answer)
    | .error e =>
      (withUser ++ [⟨"assistant", errorReplyText, none⟩], .error e)
  else
    (prior ++ [⟨"assistant", errorReplyText, none⟩],
     .error "Thread not found or access denied")

/-! ### Embedding Generator — `generateEmbedding` (embeddingService.js:360-387) -/

/-- Outcome of the external `openai.embeddings.create` call. -/
inductive EmbedApiOutcome where
  | ok (v : List ℚ)
  | threw (e : String)
deriving DecidableEq, Repr

/-- L2 normalization of the random fallback vector (embeddingService.js:382-383),
with `sq` the external square root. -/
def normalizeVec (sq : ℚ → ℚ) (v : List ℚ) : List ℚ :=
  let n := sq ((v.map (fun x => x * x)).sum)
  v.map (fun x => x / n)

/-- `generateEmbedding(text)`: returns the API embedding, and on ANY failure
catches the error and returns a normalized vector of random draws
(`Math.random() * 2 - 1` per coordinate, abstracted as `randomDraws`).
No error value ever escapes and no configuration flag is consulted. -/
def generateEmbedding (sq : ℚ → ℚ) (api : EmbedApiOutcome)
    (randomDraws : List ℚ) : Except String (List ℚ) :=
  match api with
  | .ok v => .ok v
  | .threw _ => .ok (normalizeVec sq randomDraws)

/-! ### Ingestion — `processDocument` (embeddingService.js:21-84) -/

/-- `Promise.all`: resolves with all values, or rejects with a rejection. -/
def promiseAll {ε α : Type} : List (Except ε α) → Except ε (List α)
  | [] => .ok []
  | r :: rest =>
    match r with
    | .error e => .error e
    | .ok a => (promiseAll rest).map (fun l => a :: l)

/-- Whether a chunk's embed-and-insert task succeeded. -/
def chunkOk {ε α : Type} : Except ε α → Bool
  | .ok _ => true
  | .error _ => false

/-- The ingestion run of `processDocument` for one document: the sequence of
status updates applied to the Document row, and the outcome seen by the
caller.  `chunkResults` is the per-chunk outcome of generating the embedding
and inserting the chunk row. -/
def processDocumentStatuses (docFound : Bool)
    (chunkResults : List (Except String Unit)) :
    List DocStatus × Except String Unit :=
  if docFound then
    match promiseAll chunkResults with
    | .ok _ => ([.processing, .ready], .ok ())
    | .error e => ([.processing, .error], .error e)
  else ([], .error "Document not found")

/-! ### Concrete fixtures used to evaluate the retrieval model -/

/-- Stand-in square root for concrete runs; on every value it is applied to
below (squared norms equal to 1) it agrees with the real square root. -/
def sqId : ℚ → ℚ := fun x => x

/-- A ready document, org 1. -/
def docReady : DocRow := ⟨1, 1, none, [], "T", .ready⟩

/-- A document still being ingested, org 1. -/
def docProc : DocRow := ⟨1, 1, none, [], "T", .processing⟩

def chunkA : ChunkRow := ⟨1, 1, "c1", 1, [1]⟩

def chunkB : ChunkRow := ⟨2, 1, "c2", 1, [1]⟩

def chunkP : ChunkRow := ⟨5, 1, "c", 1, [1]⟩

/-- One ready document with one chunk. -/
def dbOne : DB := ⟨[docReady], [chunkA]⟩

/-- One ready document with two chunks whose embeddings are identical, so
their similarities tie for every query. -/
def dbTie : DB := ⟨[docReady], [chunkA, chunkB]⟩

/-- One `processing` document whose chunk is already in the index. -/
def dbProc : DB := ⟨[docProc], [chunkP]⟩

def rowA : SimRow := ⟨1, 1, "c1", 1, "T", 1⟩

def rowB : SimRow := ⟨2, 1, "c2", 1, "T", 1⟩

def rowP : SimRow := ⟨5, 1, "c", 1, "T", 1⟩

lemma candidateRows_dbOne : candidateRows sqId dbOne [1] 0 none none = [rowA] := by
  unfold candidateRows eligiblePairs rowPasses rowOf dbOne docReady chunkA rowA sqId
  norm_num [cosineSim, dotQ]

lemma candidateRows_dbTie : candidateRows sqId dbTie [1] 0 none none = [rowA, rowB] := by
  unfold candidateRows eligiblePairs rowPasses rowOf dbTie docReady chunkA chunkB rowA rowB sqId
  norm_num [cosineSim, dotQ]

lemma candidateRows_dbProc : candidateRows sqId dbProc [1] 0 none (some 1) = [rowP] := by
  unfold candidateRows eligiblePairs rowPasses rowOf dbProc docProc chunkP rowP sqId
  norm_num [cosineSim, dotQ]

/-! ## Theorems -/

/-- `Promise.all` resolves exactly when every task resolves. -/
lemma promiseAll_ok_iff {ε α : Type} (rs : List (Except ε α)) :
    chunkOk (promiseAll rs) = true ↔ rs.all chunkOk = true := by
  induction rs with
  | nil => simp [promiseAll, chunkOk]
  | cons r rest ih =>
    cases r with
    | error e => simp [promiseAll, chunkOk]
    | ok a =>
      cases h : promiseAll rest with
      | error e => simp [promiseAll, h, chunkOk, Except.map, ← ih, List.all_cons]
      | ok l => simp [promiseAll, h, chunkOk, Except.map, ← ih, List.all_cons]

/-- Claim C1: on failure of the external embedding call, `generateEmbedding`
does NOT signal an error: it catches the exception and returns a fabricated
vector (the normalized random draws), for every input, with no configuration
flag consulted.  This evaluates the code on a failing call and exhibits the
divergence from the specified `EmbeddingUnavailable` policy. -/
theorem generateEmbedding_fabricates_on_failure :
    ∀ (sq : ℚ → ℚ) (e : String) (randomDraws : List ℚ),
      generateEmbedding sq (.threw e) randomDraws = .ok (normalizeVec sq randomDraws)
      ∧ ∀ api, ∃ v, generateEmbedding sq api randomDraws = .ok v := by
  intro sq e randomDraws
  refine ⟨rfl, ?_⟩
  intro api
  cases api with
  | ok v => exact ⟨v, rfl⟩
  | threw e => exact ⟨normalizeVec sq randomDraws, rfl⟩

/-- Claim C9: in an ingestion run on an existing document, the status
sequence applied to the Document row is `processing` then `ready` exactly
when every chunk's embed-and-insert task succeeded, and `processing` then
`error` exactly when some chunk task failed (all-or-nothing ingestion). -/
theorem processDocument_all_or_nothing :
    ∀ chunkResults : List (Except String Unit),
      ((processDocumentStatuses true chunkResults).1 = [.processing, .ready]
        ↔ chunkResults.all chunkOk = true)
      ∧ ((processDocumentStatuses true chunkResults).1 = [.processing, .error]
        ↔ chunkResults.all chunkOk = false) := by
  intro rs
  have h := promiseAll_ok_iff rs
  cases hp : promiseAll rs with
  | ok l =>
    rw [hp] at h
    have hall : rs.all chunkOk = true := h.mp (by simp [chunkOk])
    simp [processDocumentStatuses, hp, hall]
  | error e =>
    rw [hp] at h
    have hall : rs.all chunkOk = false := by
      cases b : rs.all chunkOk with
      | false => rfl
      | true => exact absurd (h.mpr b) (by simp [chunkOk])
    simp [processDocumentStatuses, hp, hall]

/-- Invariant of the citation-extraction fold: chunk ids stay pairwise
distinct and every accumulated citation comes from one of the passed rows. -/
lemma citeFold_invariant (docs : List SimRow) :
    ∀ (ords : List Nat) (acc : List Citation),
      ((acc.map (fun c => c.chunkId)).Nodup
        ∧ ∀ c ∈ acc, ∃ d ∈ docs, c.chunkId = d.id) →
      (((ords.foldl (citeStep docs) acc).map (fun c => c.chunkId)).Nodup
        ∧ ∀ c ∈ ords.foldl (citeStep docs) acc, ∃ d ∈ docs, c.chunkId = d.id) := by
  intro ords
  induction ords with
  | nil => intro acc h; simpa using h
  | cons n rest ih =>
    intro acc h
    rw [List.foldl_cons]
    apply ih
    unfold citeStep
    cases hd : (if 1 ≤ n then docs.get? (n - 1) else none) with
    | none => simpa using h
    | some d =>
      have hdmem : d ∈ docs := by
        by_cases h1 : 1 ≤ n
        · rw [if_pos h1] at hd; exact List.get?_mem hd
        · rw [if_neg h1] at hd; cases hd
      by_cases hdup : acc.any (fun c => c.chunkId == d.id) = true
      · simpa [hdup] using h
      · simp only [hdup, if_false, Bool.false_eq_true]
        have hnot : ∀ c ∈ acc, c.chunkId ≠ d.id := by
          intro c hc he
          exact hdup (List.any_eq_true.mpr ⟨c, hc, by simp [he]⟩)
        constructor
        · rw [List.map_append]
          refine List.Nodup.append h.1 (by simp) ?_
          intro x hx
          rcases List.mem_map.mp hx with ⟨c, hc, he⟩
          simp only [List.map_cons, List.map_nil, List.mem_singleton, citeOf]
          intro hxe
          exact hnot c hc (he.symm ▸ hxe)
        · intro c hc
          rcases List.mem_append.mp hc with hc | hc
          · exact h.2 c hc
          · rw [List.mem_singleton] at hc
            subst hc
            exact ⟨d, hdmem, rfl⟩

/-- Claim C6: every citation the extractor produces cites a row of the
passage list it was given (out-of-range ordinals contribute nothing), and
chunk ids are pairwise distinct in the output (dedup by chunk id). -/
theorem extractCitations_sound_dedup :
    ∀ (response : String) (docs : List SimRow),
      ((extractCitations response docs).map (fun c => c.chunkId)).Nodup
      ∧ (extractCitations response docs).all
          (fun c => docs.any (fun d => c.chunkId == d.id)) = true := by
  intro resp docs
  have h := citeFold_invariant docs (scanOrds resp.toList) [] (by simp)
  rw [extractCitations]
  refine ⟨h.1, ?_⟩
  rw [List.all_eq_true]
  intro c hc
  rcases h.2 c hc with ⟨d, hd, he⟩
  rw [List.any_eq_true]
  exact ⟨d, hd, by simp [he]⟩

/-- Claim C5: whatever order the database picks, every row the search query
returns clears the similarity threshold, the result is sorted by similarity
descending, and no more than `limit` rows come back. -/
theorem search_threshold_sorted_limit :
    ∀ (sq : ℚ → ℚ) (db : DB) (q : List ℚ) (thr : ℚ) (docIds : Option (List Nat))
      (orgId : Option Nat) (lim : Nat) (out : List SimRow),
      FindSimilarResult sq db q thr docIds orgId lim out →
      (∀ r ∈ out, thr ≤ r.similarity)
      ∧ List.Pairwise simDesc out
      ∧ out.length ≤ lim := by
  rintro sq db q thr docIds orgId lim out ⟨ranked, hperm, hsort, hout⟩
  subst hout
  refine ⟨?_, ?_, ?_⟩
  · intro r hr
    have hr2 : r ∈ ranked := List.mem_of_mem_take hr
    have hr3 : r ∈ candidateRows sq db q thr docIds orgId := hperm.mem_iff.mpr hr2
    rcases List.mem_map.mp hr3 with ⟨p, hp, hre⟩
    have hpass := (List.mem_filter.mp hp).2
    unfold rowPasses at hpass
    simp only [Bool.and_eq_true, decide_eq_true_eq] at hpass
    rw [← hre]
    exact hpass.1.1
  · exact hsort.sublist (List.take_sublist _ _)
  · rw [List.length_take]
    omega

/-- Witness: a one-row index run through the theorem at a concrete state. -/
theorem search_threshold_sorted_limit_witness :
    (∀ r ∈ [rowA], (0 : ℚ) ≤ r.similarity)
    ∧ List.Pairwise simDesc [rowA]
    ∧ ([rowA] : List SimRow).length ≤ 5 :=
  search_threshold_sorted_limit sqId dbOne [1] 0 none none 5 [rowA]
    ⟨[rowA], by rw [candidateRows_dbOne], by simp, by simp⟩

/-- Claim C4 (counterexample): on an index holding two chunks with identical
embeddings (hence tied similarity for the query), both orders of the tied
rows satisfy the search query's semantics — the ranked list is not unique,
so `search` on an unchanged index is not deterministic as stated. -/
theorem search_tie_order_not_deterministic :
    FindSimilarResult sqId dbTie [1] 0 none none 2 [rowA, rowB]
    ∧ FindSimilarResult sqId dbTie [1] 0 none none 2 [rowB, rowA]
    ∧ ([rowA, rowB] : List SimRow) ≠ [rowB, rowA] := by
  refine ⟨⟨[rowA, rowB], by rw [candidateRows_dbTie], ?_, by simp⟩,
          ⟨[rowB, rowA], by rw [candidateRows_dbTie]; exact List.Perm.swap rowB rowA [],
            ?_, by simp⟩,
          by decide⟩
  · exact List.pairwise_pair.mpr (by decide)
  · exact List.pairwise_pair.mpr (by decide)

instance : IsAntisymm SimRow (fun a b => b.similarity < a.similarity) :=
  ⟨fun _ _ h1 h2 => absurd (h1.trans h2) (lt_irrefl _)⟩

/-- Claim C4 (amended): determinism does hold whenever no two eligible rows
tie — with pairwise-distinct similarities any two results of the query
coincide, because a sorted permutation is then unique. -/
theorem search_deterministic_of_distinct_sims :
    ∀ (sq : ℚ → ℚ) (db : DB) (q : List ℚ) (thr : ℚ) (docIds : Option (List Nat))
      (orgId : Option Nat) (lim : Nat) (out1 out2 : List SimRow),
      ((candidateRows sq db q thr docIds orgId).map (fun r => r.similarity)).Nodup →
      FindSimilarResult sq db q thr docIds orgId lim out1 →
      FindSimilarResult sq db q thr docIds orgId lim out2 →
      out1 = out2 := by
  rintro sq db q thr docIds orgId lim out1 out2 hnd
    ⟨r1, hp1, hs1, ho1⟩ ⟨r2, hp2, hs2, ho2⟩
  subst ho1
  subst ho2
  have hperm : r1.Perm r2 := hp1.symm.trans hp2
  have hnd1 : (r1.map (fun r => r.similarity)).Nodup :=
    (hp1.map (fun r => r.similarity)).nodup_iff.mp hnd
  have hnd2 : (r2.map (fun r => r.similarity)).Nodup :=
    (hp2.map (fun r => r.similarity)).nodup_iff.mp hnd
  have hne1 : r1.Pairwise (fun a b => a.similarity ≠ b.similarity) :=
    List.pairwise_map.mp hnd1
  have hne2 : r2.Pairwise (fun a b => a.similarity ≠ b.similarity) :=
    List.pairwise_map.mp hnd2
  have hstrict1 : r1.Pairwise (fun a b => b.similarity < a.similarity) :=
    (hs1.and hne1).imp (fun h => lt_of_le_of_ne h.1 (Ne.symm h.2))
  have hstrict2 : r2.Pairwise (fun a b => b.similarity < a.similarity) :=
    (hs2.and hne2).imp (fun h => lt_of_le_of_ne h.1 (Ne.symm h.2))
  rw [List.eq_of_perm_of_sorted hperm hstrict1 hstrict2]

/-- Witness: with a single eligible row the similarities are trivially
distinct and the theorem pins the unique result. -/
theorem search_deterministic_of_distinct_sims_witness :
    ([rowA] : List SimRow) = [rowA] :=
  search_deterministic_of_distinct_sims sqId dbOne [1] 0 none none 5 [rowA] [rowA]
    (by rw [candidateRows_dbOne]; simp)
    ⟨[rowA], by rw [candidateRows_dbOne], by simp, by simp⟩
    ⟨[rowA], by rw [candidateRows_dbOne], by simp, by simp⟩

/-- Claim C2 (counterexample): neither `findRelevantDocuments` nor the
`findSimilar` query consults the document's `status`, so a chunk of a
document that is still `processing` (no document in the store is `ready`) is
returned by scope resolution plus search. -/
theorem nonready_document_returned :
    FindRelevantResult sqId dbProc 1 [1] none [] 8 0 [rowP]
    ∧ dbProc.documents.all (fun d => d.status == DocStatus.processing) = true
    ∧ rowP.documentId = 1
    ∧ ([rowP] : List SimRow) ≠ [] := by
  have hrs : resolveScope dbProc 1 none [] = some none := by decide
  refine ⟨?_, by decide, rfl, by decide⟩
  unfold FindRelevantResult
  rw [hrs]
  exact ⟨[rowP], by rw [candidateRows_dbProc], by simp, by simp⟩

lemma filter_status_upd (g : DocRow → DocStatus) (p : DocRow → Bool)
    (docs : List DocRow) :
    (docs.map (fun d => { d with status := g d })).filter p
      = (docs.filter (fun d => p { d with status := g d })).map
          (fun d => { d with status := g d }) :=
  List.filter_map _ docs

/-- Claim C2 (amended, part): the folder allow-list never depends on any
document's status. -/
lemma folderDocIds_setStatuses (g : DocRow → DocStatus) (db : DB) (o f : Nat) :
    folderDocIds (setStatuses g db) o f = folderDocIds db o f := by
  unfold folderDocIds setStatuses
  simp only
  rw [filter_status_upd, List.map_map]
  rfl

lemma taggedDocIds_setStatuses (g : DocRow → DocStatus) (db : DB) (o : Nat)
    (fId : Option Nat) (tagArr : List Nat) :
    taggedDocIds (setStatuses g db) o fId tagArr = taggedDocIds db o fId tagArr := by
  unfold taggedDocIds setStatuses
  simp only
  rw [filter_status_upd, List.map_map]
  rfl

lemma resolveScope_setStatuses (g : DocRow → DocStatus) (db : DB) (o : Nat)
    (fId : Option Nat) (tags : List Nat) :
    resolveScope (setStatuses g db) o fId tags = resolveScope db o fId tags := by
  unfold resolveScope
  have hf : folderDocIds (setStatuses g db) o = folderDocIds db o :=
    funext (fun f => folderDocIds_setStatuses g db o f)
  rw [hf, taggedDocIds_setStatuses]

lemma eligiblePairs_setStatuses (g : DocRow → DocStatus) (db : DB) :
    eligiblePairs (setStatuses g db)
      = (eligiblePairs db).map (fun p => (p.1, { p.2 with status := g p.2 })) := by
  unfold eligiblePairs setStatuses
  simp only
  rw [List.map_bind]
  refine congrArg _ (funext fun c => ?_)
  rw [filter_status_upd, List.map_map, List.map_map]
  rfl

lemma candidateRows_setStatuses (sq : ℚ → ℚ) (g : DocRow → DocStatus) (db : DB)
    (q : List ℚ) (thr : ℚ) (docIds : Option (List Nat)) (orgId : Option Nat) :
    candidateRows sq (setStatuses g db) q thr docIds orgId
      = candidateRows sq db q thr docIds orgId := by
  unfold candidateRows
  rw [eligiblePairs_setStatuses, List.filter_map, List.map_map]
  rfl

/-- Claim C2 (amended): retrieval is invariant under arbitrary rewrites of
every document's status — the `ready` restriction the claim asserts is not
checked anywhere, so exactly the same passages are returned whatever the
statuses are. -/
theorem findRelevant_status_independent :
    ∀ (g : DocRow → DocStatus) (sq : ℚ → ℚ) (db : DB) (orgId : Nat)
      (queryEmbedding : List ℚ) (folderId : Option Nat) (tags : List Nat)
      (lim : Nat) (thr : ℚ) (out : List SimRow),
      FindRelevantResult sq (setStatuses g db) orgId queryEmbedding folderId tags
          lim thr out
        ↔ FindRelevantResult sq db orgId queryEmbedding folderId tags lim thr out := by
  intro g sq db orgId qe folderId tags lim thr out
  unfold FindRelevantResult FindSimilarResult
  rw [resolveScope_setStatuses]
  simp only [candidateRows_setStatuses]

/-- The production chunking configuration `chunkSize: 800, chunkOverlap: 0.2`
yields 160 overlap tokens. -/
lemma overlapTokens_prod : (⌊((800 : ℕ) : ℚ) * (1 / 5)⌋).toNat = 160 := by
  have h : ⌊((800 : ℕ) : ℚ) * (1 / 5)⌋ = 160 := by norm_num
  rw [h]
  decide

/-- Claim C3 (behaviour at the failing inputs): empty text does yield zero
chunks, but a two-character page — shorter than the 800-token target — yields
one chunk whose text is `"97 98"` (the token ids joined by spaces, by the
placeholder `decode`), not the page text `"ab"`. -/
theorem chunker_short_page_text_wrong :
    splitTextIntoChunks charTokens "" 800 (1 / 5) = []
    ∧ splitTextIntoChunks charTokens "ab" 800 (1 / 5)
        = [{ text := "97 98", page := 1, tokenCount := 2, startIndex := 0, endIndex := 1 }]
    ∧ ("97 98" : String) ≠ "ab" := by
  refine ⟨?_, ?_, by decide⟩
  · simp only [splitTextIntoChunks, overlapTokens_prod]
    decide
  · simp only [splitTextIntoChunks, overlapTokens_prod]
    decide

/-- Claim C8 (counterexample): chunking a single page of 641 tokens with the
production parameters (`target 800`, `overlap 0.2`) produces two consecutive
chunks in the same page sharing exactly one token — far outside ±1 of
`800 × 0.2 = 160`. -/
theorem overlap_bound_fails_at_page_tail :
    ((splitTextIntoChunks charTokens (String.mk (List.replicate 641 'a')) 800 (1 / 5)).map
        (fun c => (c.page, c.startIndex, c.endIndex)))
      = [(1, 0, (640 : ℤ)), (1, 640, 640)]
    ∧ tokenOverlap
        ((splitTextIntoChunks charTokens (String.mk (List.replicate 641 'a')) 800
            (1 / 5)).getD 0 ⟨"", 0, 0, 0, 0⟩)
        ((splitTextIntoChunks charTokens (String.mk (List.replicate 641 'a')) 800
            (1 / 5)).getD 1 ⟨"", 0, 0, 0, 0⟩)
      = 1
    ∧ ¬ overlapWithinOne
        ((splitTextIntoChunks charTokens (String.mk (List.replicate 641 'a')) 800
            (1 / 5)).getD 0 ⟨"", 0, 0, 0, 0⟩)
        ((splitTextIntoChunks charTokens (String.mk (List.replicate 641 'a')) 800
            (1 / 5)).getD 1 ⟨"", 0, 0, 0, 0⟩)
        800 (1 / 5) := by
  have hov : tokenOverlap
      ((splitTextIntoChunks charTokens (String.mk (List.replicate 641 'a')) 800
          (1 / 5)).getD 0 ⟨"", 0, 0, 0, 0⟩)
      ((splitTextIntoChunks charTokens (String.mk (List.replicate 641 'a')) 800
          (1 / 5)).getD 1 ⟨"", 0, 0, 0, 0⟩)
      = 1 := by
    simp only [splitTextIntoChunks, overlapTokens_prod]
    decide
  refine ⟨?_, hov, ?_⟩
  · simp only [splitTextIntoChunks, overlapTokens_prod]
    decide
  · unfold overlapWithinOne
    rw [hov]
    norm_num

/-- Positions and bounds of the chunks emitted by the sliding-window loop:
the `i`-th chunk starts at `s + i·step` and every emitted start lies inside
the token stream. -/
lemma chunkLoop_getq (tokens : List Nat) (target step page : Nat) :
    ∀ (i fuel s : Nat), tokens.length - s < fuel →
      i < (chunkLoop tokens target step page fuel s).length →
      (chunkLoop tokens target step page fuel s).get? i
          = some (pieceAt tokens target page (s + i * step))
      ∧ s + i * step < tokens.length := by
  intro i
  induction i with
  | zero =>
    intro fuel s hfuel h
    cases fuel with
    | zero => simp [chunkLoop] at h
    | succ f =>
      simp only [chunkLoop] at h ⊢
      by_cases hc : s < tokens.length ∧ 0 < step
      · rw [if_pos hc] at h ⊢
        exact ⟨by simp, by simpa using hc.1⟩
      · rw [if_neg hc] at h
        simp at h
  | succ i ih =>
    intro fuel s hfuel h
    cases fuel with
    | zero => simp [chunkLoop] at h
    | succ f =>
      simp only [chunkLoop] at h ⊢
      by_cases hc : s < tokens.length ∧ 0 < step
      · rw [if_pos hc] at h ⊢
        have hf2 : tokens.length - (s + step) < f := by omega
        have hlen : i < (chunkLoop tokens target step page f (s + step)).length := by
          simpa using h
        have hrec := ih f (s + step) hf2 hlen
        have harith : s + step + i * step = s + (i + 1) * step := by ring
        refine ⟨?_, ?_⟩
        · rw [List.get?_cons_succ, hrec.1, harith]
        · rw [← harith]
          exact hrec.2
      · rw [if_neg hc] at h
        simp at h

/-- Claim C8 (amended): for consecutive chunks of the same page, the shared
token count equals `min overlapTokens (pageLength − laterStart)`: it is the
configured overlap except when the earlier chunk was truncated by the page
end, where it shrinks to the tokens that remain. -/
theorem chunk_overlap_formula :
    ∀ (tokens : List Nat) (target overlapT page i : Nat),
      overlapT < target →
      ∀ h : i + 1 < (chunkPage tokens target overlapT page).length,
        tokenOverlap
            ((chunkPage tokens target overlapT page).get ⟨i, Nat.lt_of_succ_lt h⟩)
            ((chunkPage tokens target overlapT page).get ⟨i + 1, h⟩)
          = min ((overlapT : ℤ))
              ((tokens.length : ℤ) - (((i + 1) * (target - overlapT) : ℕ) : ℤ)) := by
  intro tokens target overlapT page i hlt h
  have hfuel : tokens.length - 0 < tokens.length + 1 := by omega
  have h1 := chunkLoop_getq tokens target (target - overlapT) page i (tokens.length + 1) 0
    hfuel (Nat.lt_of_succ_lt h)
  have h2 := chunkLoop_getq tokens target (target - overlapT) page (i + 1)
    (tokens.length + 1) 0 hfuel h
  have e1 : (chunkPage tokens target overlapT page).get ⟨i, Nat.lt_of_succ_lt h⟩
      = pieceAt tokens target page (0 + i * (target - overlapT)) :=
    Option.some.inj ((List.get?_eq_get (Nat.lt_of_succ_lt h)).symm.trans h1.1)
  have e2 : (chunkPage tokens target overlapT page).get ⟨i + 1, h⟩
      = pieceAt tokens target page (0 + (i + 1) * (target - overlapT)) :=
    Option.some.inj ((List.get?_eq_get h).symm.trans h2.1)
  rw [e1, e2]
  have hp2 : 0 + (i + 1) * (target - overlapT) < tokens.length := h2.2
  unfold tokenOverlap pieceAt
  simp only
  have hmul : (i + 1) * (target - overlapT) = i * (target - overlapT) + (target - overlapT) := by
    ring
  rw [hmul] at hp2 ⊢
  generalize i * (target - overlapT) = a at hp2 ⊢
  omega

/-- Witness: three tokens, window 2, overlap 1 — consecutive chunks share
exactly `min 1 (3 − 1·1) = 1` token. -/
theorem chunk_overlap_formula_witness :
    tokenOverlap
        ((chunkPage [5, 6, 7] 2 1 1).get ⟨0, by decide⟩)
        ((chunkPage [5, 6, 7] 2 1 1).get ⟨0 + 1, by decide⟩)
      = min (((1 : ℕ) : ℤ))
          ((([5, 6, 7] : List Nat).length : ℤ) - (((0 + 1) * (2 - 1) : ℕ) : ℤ)) :=
  chunk_overlap_formula [5, 6, 7] 2 1 1 0 (by decide) (by decide)

/-- Claim C10: when the thread-ownership check has passed and any later step
of `processMessage` fails, the run appends the just-saved user message and an
assistant message with the fixed apology text and no citations, and rethrows
the original error — the thread is changed, not left intact. -/
theorem processMessage_error_appends_and_rethrows :
    ∀ (prior : List Msg) (userMessage e : String),
      processMessageRun true prior userMessage (.error e)
        = (prior ++ [⟨"user", userMessage, none⟩, ⟨"assistant", errorReplyText, none⟩],
           .error e)
      ∧ (processMessageRun true prior userMessage (.error e)).1 ≠ prior := by
  intro prior um e
  constructor
  · simp [processMessageRun]
  · intro h
    have hl := congrArg List.length h
    simp [processMessageRun] at hl

/-- Claim C7: the conversation history placed between the system segment and
the final user segment is NOT the most-recent turns: the query orders by
`createdAt` ascending with `limit: 10`, so it is the ten OLDEST messages
(with the last of those dropped by `slice(0, -1)`).  Evaluated on a thread
holding eleven prior messages `m1..m11` plus the new user message `m12`: the
assembled prompt carries `m1..m9` and omits the most recent turns `m10`,
`m11` (and never the just-saved `m12`). -/
theorem history_window_takes_oldest_messages :
    chatMessagesFor "sys"
        ((List.range 11).map
          (fun i => ⟨if i % 2 = 0 then "user" else "assistant",
                     "m" ++ toString (i + 1), none⟩))
        "m12" []
      = [⟨"system", "sys"⟩,
         ⟨"user", "m1"⟩, ⟨"assistant", "m2"⟩, ⟨"user", "m3"⟩, ⟨"assistant", "m4"⟩,
         ⟨"user", "m5"⟩, ⟨"assistant", "m6"⟩, ⟨"user", "m7"⟩, ⟨"assistant", "m8"⟩,
         ⟨"user", "m9"⟩,
         ⟨"user", "Question: m12\n\nDocument excerpts: [No relevant documents found]"⟩]
      ∧ (chatMessagesFor "sys"
          ((List.range 11).map
            (fun i => ⟨if i % 2 = 0 then "user" else "assistant",
                       "m" ++ toString (i + 1), none⟩))
          "m12" []).all (fun m => m.content ≠ "m11" ∧ m.content ≠ "m10") := by
  constructor
  · decide
  · decide

end DocuChat
